import Mathlib

/-!
Verification of the model-resolution and stream-transformation logic of
`src/server.js` (an OpenAI-dialect to NVIDIA NIM chat-completion proxy).

The JavaScript code is shallowly embedded: JS strings become `List Char`,
JS values of JSON shape become the inductive `JVal` (with an explicit
`undefined` for JavaScript's `undefined`), mutation becomes functional update,
and the per-chunk stream callback becomes a state-passing function.
Floating-point numeric arithmetic is outside the embedding: JSON numbers
are carried as their literal text, which the source never does arithmetic
on (it only tests truthiness and concatenates into strings).
-/

namespace NimProxy

/-- JavaScript strings, modelled as lists of characters. -/
abbrev JStr := List Char

/-- The character list of a Lean string literal. -/
def S (s : String) : JStr := s.toList

/-- Left brace character (kept out of string literals). -/
def lbrace : Char := '\x7b'

/-- Right brace character (kept out of string literals). -/
def rbrace : Char := '\x7d'

/-- Apostrophe character. -/
def apos : Char := '\x27'

/-- JavaScript values of JSON shape, plus `undefined`.  Numbers are carried
as their literal text (see file header). -/
inductive JVal where
  | undefined : JVal
  | null : JVal
  | bool : Bool → JVal
  | num : JStr → JVal
  | str : JStr → JVal
  | arr : List JVal → JVal
  | obj : List (JStr × JVal) → JVal

/-- ASCII digit test. -/
def isDigitCh (c : Char) : Bool := 48 ≤ c.toNat && c.toNat ≤ 57

/-- The mantissa of a numeric literal: the characters before any exponent. -/
def numMantissa (raw : JStr) : JStr := raw.takeWhile (fun c => c ≠ 'e' && c ≠ 'E')

/-- A JSON numeric literal denotes zero iff every mantissa digit is `0`. -/
def numIsZero (raw : JStr) : Bool := (numMantissa raw).all (fun c => !isDigitCh c || c = '0')

/-- JavaScript truthiness of a value. -/
def jTruthy : JVal → Bool
  | .undefined => false
  | .null => false
  | .bool b => b
  | .num raw => !numIsZero raw
  | .str s => !s.isEmpty
  | .arr _ => true
  | .obj _ => true

/-- `undefined` test. -/
def isUndefinedV : JVal → Bool
  | .undefined => true
  | _ => false

/-- `null` or `undefined` (the values guarded by `?.`). -/
def isNullish : JVal → Bool
  | .undefined => true
  | .null => true
  | _ => false

mutual

/-- JavaScript string coercion (`String(v)`, also used by `+` with a string
operand). -/
def jsToString : JVal → JStr
  | .undefined => S "undefined"
  | .null => S "null"
  | .bool true => S "true"
  | .bool false => S "false"
  | .num raw => raw
  | .str s => s
  | .arr xs => jsArrToString xs
  | .obj _ => S "[object Object]"

/-- `Array.prototype.join(',')` used by array-to-string coercion.
Elements that are `null`/`undefined` join as empty text. -/
def jsArrToString : List JVal → JStr
  | [] => []
  | [v] => if isNullish v then [] else jsToString v
  | v :: rest => (if isNullish v then [] else jsToString v) ++ [','] ++ jsArrToString rest

end

/-- Lowercase hex digit for escape sequences. -/
def hexDigit (n : Nat) : Char :=
  Char.ofNat (if n < 10 then 48 + n else 87 + n)

/-- `JSON.stringify` escaping of one character inside a string literal. -/
def jsonEscapeChar (c : Char) : JStr :=
  if c = '"' then ['\\', '"']
  else if c = '\\' then ['\\', '\\']
  else if c = '\n' then ['\\', 'n']
  else if c = '\r' then ['\\', 'r']
  else if c = '\t' then ['\\', 't']
  else if c = '\x08' then ['\\', 'b']
  else if c = '\x0c' then ['\\', 'f']
  else if c.toNat < 0x20 then ['\\', 'u', '0', '0', hexDigit (c.toNat / 16), hexDigit (c.toNat % 16)]
  else [c]

/-- A quoted, escaped JSON string literal. -/
def jsonQuote (s : JStr) : JStr :=
  '"' :: s.foldr (fun c acc => jsonEscapeChar c ++ acc) ['"']

/-- Comma-join a list of fragments. -/
def joinComma : List JStr → JStr
  | [] => []
  | [x] => x
  | x :: rest => x ++ [','] ++ joinComma rest

mutual

/-- `JSON.stringify`.  Object members whose value is `undefined` are
omitted; array elements that are `undefined` serialize as `null`.
(A top-level `undefined` is never serialized by the source; the template
literal would coerce it to the text `undefined`.) -/
def stringifyVal : JVal → JStr
  | .undefined => S "undefined"
  | .null => S "null"
  | .bool true => S "true"
  | .bool false => S "false"
  | .num raw => raw
  | .str s => jsonQuote s
  | .arr xs => '[' :: (joinComma (stringifyElems xs) ++ [']'])
  | .obj fs => lbrace :: (joinComma (stringifyFields fs) ++ [rbrace])

/-- Serialized `"key":value` members, skipping `undefined` values. -/
def stringifyFields : List (JStr × JVal) → List JStr
  | [] => []
  | (k, v) :: rest =>
    if isUndefinedV v then stringifyFields rest
    else (jsonQuote k ++ [':'] ++ stringifyVal v) :: stringifyFields rest

/-- Serialized array elements (`undefined` becomes `null`). -/
def stringifyElems : List JVal → List JStr
  | [] => []
  | v :: rest =>
    (if isUndefinedV v then S "null" else stringifyVal v) :: stringifyElems rest

end

/-- JSON whitespace accepted by `JSON.parse` between tokens. -/
def jsonWs (c : Char) : Bool := c = ' ' || c = '\t' || c = '\n' || c = '\r'

/-- Drop leading JSON whitespace. -/
def skipWs (s : JStr) : JStr := s.dropWhile jsonWs

/-- Numeric value of one hexadecimal digit character. -/
def hexCharVal (c : Char) : Option Nat :=
  let n := c.toNat
  if 48 ≤ n && n ≤ 57 then some (n - 48)
  else if 97 ≤ n && n ≤ 102 then some (n - 87)
  else if 65 ≤ n && n ≤ 70 then some (n - 55)
  else none

/-- Parse the body of a JSON string literal (after the opening quote),
returning the decoded characters and the remainder after the closing
quote.  Escapes follow `JSON.parse`; `\uXXXX` denoting a surrogate half
is outside the embedding (no claim involves one). -/
def parseStrBody : Nat → JStr → Option (JStr × JStr)
  | 0, _ => none
  | _, [] => none
  | fuel + 1, c :: rest =>
    if c = '"' then some ([], rest)
    else if c = '\\' then
      match rest with
      | [] => none
      | e :: rest2 =>
        if e = '"' then (fun p : JStr × JStr => ('"' :: p.1, p.2)) <$> parseStrBody fuel rest2
        else if e = '\\' then (fun p : JStr × JStr => ('\\' :: p.1, p.2)) <$> parseStrBody fuel rest2
        else if e = '/' then (fun p : JStr × JStr => ('/' :: p.1, p.2)) <$> parseStrBody fuel rest2
        else if e = 'b' then (fun p : JStr × JStr => ('\x08' :: p.1, p.2)) <$> parseStrBody fuel rest2
        else if e = 'f' then (fun p : JStr × JStr => ('\x0c' :: p.1, p.2)) <$> parseStrBody fuel rest2
        else if e = 'n' then (fun p : JStr × JStr => ('\n' :: p.1, p.2)) <$> parseStrBody fuel rest2
        else if e = 'r' then (fun p : JStr × JStr => ('\r' :: p.1, p.2)) <$> parseStrBody fuel rest2
        else if e = 't' then (fun p : JStr × JStr => ('\t' :: p.1, p.2)) <$> parseStrBody fuel rest2
        else if e = 'u' then
          match rest2 with
          | h1 :: h2 :: h3 :: h4 :: rest3 =>
            match hexCharVal h1, hexCharVal h2, hexCharVal h3, hexCharVal h4 with
            | some a, some b, some cc, some d =>
              (fun p : JStr × JStr => (Char.ofNat (a * 4096 + b * 256 + cc * 16 + d) :: p.1, p.2))
                <$> parseStrBody fuel rest3
            | _, _, _, _ => none
          | _ => none
        else none
    else if c.toNat < 0x20 then none
    else (fun p : JStr × JStr => (c :: p.1, p.2)) <$> parseStrBody fuel rest

/-- Parse a JSON string literal body with adequate fuel. -/
def parseStr (s : JStr) : Option (JStr × JStr) := parseStrBody (s.length + 1) s

/-- Optional exponent part of a numeric literal. -/
def parseNumExp (acc : JStr) (s : JStr) : Option (JStr × JStr) :=
  match s with
  | e :: r =>
    if e = 'e' || e = 'E' then
      let (esign, r2) : JStr × JStr := match r with
        | '+' :: rr => (['+'], rr)
        | '-' :: rr => (['-'], rr)
        | _ => ([], r)
      match r2.takeWhile isDigitCh with
      | [] => none
      | ds => some (acc ++ e :: (esign ++ ds), r2.dropWhile isDigitCh)
    else some (acc, s)
  | [] => some (acc, s)

/-- Optional fraction part of a numeric literal, then the exponent. -/
def parseNumFrac (acc : JStr) (s : JStr) : Option (JStr × JStr) :=
  match s with
  | '.' :: r =>
    match r.takeWhile isDigitCh with
    | [] => none
    | ds => parseNumExp (acc ++ '.' :: ds) (r.dropWhile isDigitCh)
  | _ => parseNumExp acc s

/-- Parse a JSON numeric literal, returning its raw text and the rest.
The integer part allows no leading zeros, as in the JSON grammar. -/
def parseNum (s : JStr) : Option (JStr × JStr) :=
  let (sign, s1) : JStr × JStr := match s with
    | '-' :: r => (['-'], r)
    | _ => ([], s)
  match s1 with
  | [] => none
  | c :: r =>
    if c = '0' then
      parseNumFrac (sign ++ ['0']) r
    else if isDigitCh c then
      parseNumFrac (sign ++ (c :: r.takeWhile isDigitCh)) (r.dropWhile isDigitCh)
    else none

/-- Update-or-append an object member, mirroring JavaScript property
assignment: an existing key keeps its position, a new key is appended. -/
def setObjField : List (JStr × JVal) → JStr → JVal → List (JStr × JVal)
  | [], k, v => [(k, v)]
  | (k2, v2) :: rest, k, v =>
    if k2 = k then (k, v) :: rest else (k2, v2) :: setObjField rest k v

mutual

/-- Parse one JSON value (fuel-based recursion; the callers supply fuel
at least the input length plus one, which every nesting level decreases
while consuming input). -/
def parseVal : Nat → JStr → Option (JVal × JStr)
  | 0, _ => none
  | fuel + 1, s0 =>
    match skipWs s0 with
    | [] => none
    | c :: rest =>
      if c = 'n' then
        if (S "ull").isPrefixOf rest then some (.null, rest.drop 3) else none
      else if c = 't' then
        if (S "rue").isPrefixOf rest then some (.bool true, rest.drop 3) else none
      else if c = 'f' then
        if (S "alse").isPrefixOf rest then some (.bool false, rest.drop 4) else none
      else if c = '"' then
        (fun p : JStr × JStr => (JVal.str p.1, p.2)) <$> parseStr rest
      else if c = '[' then
        match skipWs rest with
        | ']' :: r2 => some (.arr [], r2)
        | s2 => (fun p : List JVal × JStr => (JVal.arr p.1, p.2)) <$> parseArrElems fuel s2
      else if c = lbrace then
        match skipWs rest with
        | c2 :: r2 =>
          if c2 = rbrace then some (.obj [], r2)
          else (fun p : List (JStr × JVal) × JStr => (JVal.obj p.1, p.2))
            <$> parseObjFields fuel [] (c2 :: r2)
        | [] => none
      else (fun p : JStr × JStr => (JVal.num p.1, p.2)) <$> parseNum (c :: rest)

/-- Parse the elements of a non-empty JSON array. -/
def parseArrElems : Nat → JStr → Option (List JVal × JStr)
  | 0, _ => none
  | fuel + 1, s =>
    match parseVal fuel s with
    | none => none
    | some (v, r) =>
      match skipWs r with
      | ',' :: r2 => (fun p : List JVal × JStr => (v :: p.1, p.2)) <$> parseArrElems fuel r2
      | ']' :: r2 => some ([v], r2)
      | _ => none

/-- Parse the members of a non-empty JSON object.  A duplicate key keeps
its first position and takes the later value, as `JSON.parse` does. -/
def parseObjFields : Nat → List (JStr × JVal) → JStr → Option (List (JStr × JVal) × JStr)
  | 0, _, _ => none
  | fuel + 1, acc, s =>
    match skipWs s with
    | '"' :: r =>
      match parseStr r with
      | none => none
      | some (k, r2) =>
        match skipWs r2 with
        | ':' :: r3 =>
          match parseVal fuel r3 with
          | none => none
          | some (v, r4) =>
            let acc2 := setObjField acc k v
            match skipWs r4 with
            | ',' :: r5 => parseObjFields fuel acc2 r5
            | c5 :: r5 => if c5 = rbrace then some (acc2, r5) else none
            | [] => none
        | _ => none
    | _ => none

end

/-- `JSON.parse`: the whole input (up to surrounding whitespace) must be
one JSON value. -/
def parseJson (s : JStr) : Option JVal :=
  match parseVal (s.length + 1) s with
  | some (v, rest) => if (skipWs rest).isEmpty then some v else none
  | none => none

/-! ## JavaScript property access and operators -/

/-- Look up a key in an object member list (first match). -/
def lookupField : List (JStr × JVal) → JStr → Option JVal
  | [], _ => none
  | (k, v) :: rest, key => if k = key then some v else lookupField rest key

/-- Property read by name, `undefined` when absent.  Used only where the
source guards the receiver against `null`/`undefined`, or where the
receiver's primitive wrapper has no such property. -/
def jGetProp (v : JVal) (key : JStr) : JVal :=
  match v with
  | .obj fs =>
    match lookupField fs key with
    | some w => w
    | none => .undefined
  | _ => .undefined

/-- Strict property read: `none` models the `TypeError` a read on
`null`/`undefined` throws. -/
def jsGetStrict (v : JVal) (key : JStr) : Option JVal :=
  if isNullish v then none else some (jGetProp v key)

/-- `v[0]`: array element, character of a string, or member `"0"`. -/
def jIndex0 : JVal → JVal
  | .arr (x :: _) => x
  | .arr [] => .undefined
  | .str (c :: _) => .str [c]
  | .str [] => .undefined
  | v => jGetProp v (S "0")

/-- `data.choices?.[0]?.delta` (the caller has ruled out a nullish
`data`, on which the first read would throw). -/
def chainDelta (data : JVal) : JVal :=
  let c := jGetProp data (S "choices")
  let e := if isNullish c then JVal.undefined else jIndex0 c
  if isNullish e then JVal.undefined else jGetProp e (S "delta")

/-- Remove an object member (`delete`). -/
def removeObjField (fs : List (JStr × JVal)) (k : JStr) : List (JStr × JVal) :=
  fs.filter (fun p => p.1 ≠ k)

/-- Apply a function to the value of an existing key, first match only. -/
def mapObjField : List (JStr × JVal) → JStr → (JVal → JVal) → List (JStr × JVal)
  | [], _, _ => []
  | (k2, v2) :: rest, k, f =>
    if k2 = k then (k2, f v2) :: rest else (k2, v2) :: mapObjField rest k f

/-- Rewrite an object's member list, identity on non-objects (property
writes on primitives are silently dropped in sloppy mode, and a
non-index property set on an array is invisible to `JSON.stringify`). -/
def updateDeltaObj (f : List (JStr × JVal) → List (JStr × JVal)) : JVal → JVal
  | .obj dfs => .obj (f dfs)
  | other => other

/-- Rewrite the `delta` member of one choice element. -/
def updateChoiceElem (f : JVal → JVal) : JVal → JVal
  | .obj efs => .obj (mapObjField efs (S "delta") f)
  | other => other

/-- Rewrite element `0` of the `choices` value. -/
def updateChoices0 (f : JVal → JVal) : JVal → JVal
  | .arr (e :: rest) => .arr (updateChoiceElem f e :: rest)
  | .obj cfs => .obj (mapObjField cfs (S "0") (updateChoiceElem f))
  | other => other

/-- Functional form of a write through the path `data.choices[0].delta`. -/
def updateChoice0Delta (f : JVal → JVal) : JVal → JVal
  | .obj fs => .obj (mapObjField fs (S "choices") (updateChoices0 f))
  | other => other

/-- `data.choices[0].delta.content = v`. -/
def setDeltaContent (data : JVal) (v : JVal) : JVal :=
  updateChoice0Delta (updateDeltaObj (fun dfs => setObjField dfs (S "content") v)) data

/-- `delete data.choices[0].delta.reasoning_content`. -/
def deleteDeltaReasoning (data : JVal) : JVal :=
  updateChoice0Delta (updateDeltaObj (fun dfs => removeObjField dfs (S "reasoning_content"))) data

/-- Digit-list to natural number. -/
def ofDigits (ds : JStr) : Int :=
  ds.foldl (fun acc c => acc * 10 + (c.toNat - '0'.toNat : Int)) 0

/-- Numeric coercion for `+` on non-string operands.  Only integer
literals are computed (float arithmetic is outside the embedding and no
claim reaches it); `undefined` (NaN) likewise falls to the default. -/
def numCoerce? : JVal → Option Int
  | .null => some 0
  | .bool true => some 1
  | .bool false => some 0
  | .num raw =>
    match raw with
    | '-' :: ds => if ds ≠ [] && ds.all isDigitCh then some (-(ofDigits ds)) else none
    | ds => if ds ≠ [] && ds.all isDigitCh then some (ofDigits ds) else none
  | _ => none

/-- JavaScript `+`: string concatenation when either operand coerces to
a string, else numeric addition.  Additions the integer model cannot
represent fall back to concatenation; they are unreachable in every
claim (the source only ever adds string-typed fields). -/
def jsAdd (a b : JVal) : JVal :=
  let stringy : JVal → Bool := fun v =>
    match v with
    | .str _ => true
    | .arr _ => true
    | .obj _ => true
    | _ => false
  if stringy a || stringy b then .str (jsToString a ++ jsToString b)
  else
    match numCoerce? a, numCoerce? b with
    | some x, some y => .num (S (toString (x + y)))
    | _, _ => .str (jsToString a ++ jsToString b)

/-! ## Stream transformer (src/server.js lines 148-239) -/

/-- `SHOW_REASONING` constant of the source (line 19).  The transformer
below takes the display mode as a parameter so both modes can be
reasoned about; the deployed value is this constant. -/
def SHOW_REASONING : Bool := false

/-- `ENABLE_THINKING_MODE` constant of the source (line 20). -/
def ENABLE_THINKING_MODE : Bool := true

/-- Whitespace class of the JavaScript regex `\s` (ASCII part; the
Unicode spaces it also matches never occur in the claims). -/
def jsRegexWs (c : Char) : Bool :=
  c = ' ' || c = '\t' || c = '\n' || c = '\r' || c = '\x0b' || c = '\x0c'

/-- `line.replace(/\r$/, '')`: drop one trailing carriage return. -/
def stripTrailingCR (s : JStr) : JStr :=
  if s.getLast? = some '\r' then s.dropLast else s

/-- The `data:` event prefix. -/
def dataPrefix : JStr := S "data:"

/-- The termination tag. -/
def doneTag : JStr := S "[DONE]"

/-- Substring test (`String.prototype.includes`). -/
def containsSub : JStr → JStr → Bool
  | [], pat => pat.isEmpty
  | s@(_ :: rest), pat => pat.isPrefixOf s || containsSub rest pat

/-- Index of the first occurrence of a substring. -/
def findSub : JStr → JStr → Option Nat
  | [], pat => if pat.isEmpty then some 0 else none
  | s@(_ :: rest), pat =>
    if pat.isPrefixOf s then some 0
    else
      match findSub rest pat with
      | some n => some (n + 1)
      | none => none

/-- `line.replace(/^data:\s*/, '')`. -/
def stripDataPrefix (line : JStr) : JStr :=
  if dataPrefix.isPrefixOf line then (line.drop 5).dropWhile jsRegexWs else line

/-- The opening trace marker plus newline, `'<think>\n'`. -/
def thinkOpenNl : JStr := S "<think>\n"

/-- The closing trace marker, `'</think>\n\n'`. -/
def thinkClose : JStr := S "</think>\n\n"

/-- The closing event written at `[DONE]` and at stream end
(lines 168-170 and 229-231). -/
def closeEventSimple : JVal :=
  .obj [(S "choices", .arr [.obj [(S "index", .num (S "0")),
    (S "delta", .obj [(S "content", .str thinkClose)])]])]

/-- The closing event written before a content delta (lines 188-196);
`id` and `object` are copied from the triggering event and dropped by
`JSON.stringify` when `undefined`. -/
def closeEventFull (data : JVal) : JVal :=
  .obj [(S "id", jGetProp data (S "id")),
        (S "object", jGetProp data (S "object")),
        (S "choices", .arr [.obj [(S "index", .num (S "0")),
          (S "delta", .obj [(S "content", .str thinkClose)]),
          (S "finish_reason", .null)]])]

/-- One `res.write` of an event line. -/
def writeEvt (v : JVal) : JStr := S "data: " ++ stringifyVal v ++ S "\n\n"

/-- The forwarded termination line. -/
def doneOut : JStr := S "data: [DONE]\n\n"

/-- Lines 181-218: merge the delta's reasoning and content channels.
Returns the new `reasoningStarted` flag, the events written before the
payload, and the transformed payload. -/
def transformDelta (showR : Bool) (rs : Bool) (data : JVal) : Bool × List JStr × JVal :=
  let delta := chainDelta data
  if jTruthy delta then
    let reasoning := jGetProp delta (S "reasoning_content")
    let content := jGetProp delta (S "content")
    if showR then
      let fire := rs && !jTruthy reasoning && jTruthy content
      let pre := if fire then [writeEvt (closeEventFull data)] else []
      let rs1 := if fire then false else rs
      let cr :=
        if jTruthy reasoning && !rs1 then (jsAdd (.str thinkOpenNl) reasoning, true)
        else if jTruthy reasoning then (reasoning, rs1)
        else (JVal.str [], rs1)
      let combined := if jTruthy content then jsAdd cr.1 content else cr.1
      let data2 := deleteDeltaReasoning (setDeltaContent data combined)
      (cr.2, pre, data2)
    else
      let newContent := if jTruthy content then content else JVal.str []
      let data2 := deleteDeltaReasoning (setDeltaContent data newContent)
      (rs, [], data2)
  else (rs, [], data)

/-- Lines 162-223: process one complete line.  A line whose payload does
not parse, or whose parsed payload is `null` (so that `data.choices`
throws), is dropped by the per-line `try`/`catch`. -/
def processLine (showR : Bool) (rs : Bool) (rawLine : JStr) : Bool × List JStr :=
  let line := stripTrailingCR rawLine
  if !dataPrefix.isPrefixOf line then (rs, [])
  else if containsSub line doneTag then
    if showR && rs then (false, [writeEvt closeEventSimple, doneOut])
    else (rs, [doneOut])
  else
    match parseJson (stripDataPrefix line) with
    | none => (rs, [])
    | some JVal.null => (rs, [])
    | some data =>
      let r := transformDelta showR rs data
      (r.1, r.2.1 ++ [writeEvt r.2.2])

/-- Process a list of complete lines in order, threading the flag. -/
def foldLines (showR : Bool) : Bool → List JStr → Bool × List JStr
  | rs, [] => (rs, [])
  | rs, l :: ls =>
    let r1 := processLine showR rs l
    let r2 := foldLines showR r1.1 ls
    (r2.1, r1.2 ++ r2.2)

/-- Complete lines and the trailing fragment of a string. -/
def breakLines : JStr → List JStr × JStr
  | [] => ([], [])
  | c :: rest =>
    if c = '\n' then
      let r := breakLines rest
      ([] :: r.1, r.2)
    else
      match breakLines rest with
      | ([], r) => ([], c :: r)
      | (l :: ls, r) => ((c :: l) :: ls, r)

/-- JavaScript `String.prototype.split('\n')`: the complete lines
followed by the (possibly empty) trailing fragment. -/
def splitNl (s : JStr) : List JStr := (breakLines s).1 ++ [(breakLines s).2]

/-- The per-stream mutable state: the partial-line buffer and the
`reasoningStarted` flag (lines 154-155). -/
structure StreamState where
  buffer : JStr
  reasoningStarted : Bool
deriving DecidableEq

/-- Lines 157-225: one `data` callback.  The chunk is appended to the
buffer, the final split fragment is held back (`lines.pop() || ''`), and
each complete line is processed. -/
def processChunk (showR : Bool) (st : StreamState) (chunk : JStr) : StreamState × List JStr :=
  let buf := st.buffer ++ chunk
  let lines := splitNl buf
  let newBuffer := lines.getLast?.getD []
  let body := lines.dropLast
  let r := foldLines showR st.reasoningStarted body
  (⟨newBuffer, r.1⟩, r.2)

/-- Feed a sequence of chunks, concatenating the written output. -/
def processChunks (showR : Bool) : StreamState → List JStr → StreamState × List JStr
  | st, [] => (st, [])
  | st, c :: cs =>
    let r1 := processChunk showR st c
    let r2 := processChunks showR r1.1 cs
    (r2.1, r1.2 ++ r2.2)

/-- Lines 227-234: the `end` handler closes a dangling reasoning
section. -/
def processEnd (showR : Bool) (rs : Bool) : List JStr :=
  if showR && rs then [writeEvt closeEventSimple] else []

/-! ## Model resolution (src/server.js lines 22-41 and 77-124) -/

/-- `MODEL_MAPPING` (lines 22-30), as a plain record: prototype-chain
property inheritance of JavaScript object literals is outside the
embedding. -/
def MODEL_MAPPING : List (JStr × JStr) :=
  [(S "gpt-3.5-turbo", S "nvidia/llama-3.1-nemotron-ultra-253b-v1"),
   (S "gpt-4", S "qwen/qwen3-coder-480b-a35b-instruct"),
   (S "gpt-4-turbo", S "moonshotai/kimi-k2-instruct-0905"),
   (S "gpt-4o", S "deepseek-ai/deepseek-v3.1"),
   (S "claude-3-opus", S "z-ai/glm4.7"),
   (S "claude-3-sonnet", S "z-ai/glm5"),
   (S "gemini-pro", S "qwen/qwen3-next-80b-a3b-thinking")]

/-- `THINKING_CAPABLE_MODELS` (lines 33-39). -/
def THINKING_CAPABLE_MODELS : List JStr :=
  [S "nvidia/llama-3.1-nemotron-ultra-253b-v1",
   S "qwen/qwen3-235b-a22b",
   S "qwen/qwen3-next-80b-a3b-thinking",
   S "qwen/qwen3-coder-480b-a35b-instruct"]

/-- Association-list lookup for string maps. -/
def lookupStr : List (JStr × JStr) → JStr → Option JStr
  | [], _ => none
  | (k, v) :: rest, key => if k = key then some v else lookupStr rest key

/-- The `verifiedModels` cache: public name to `null`-able backend name
(`none` in the value position is the cached `null` of a failed probe). -/
abbrev Cache := List (JStr × Option JStr)

/-- `verifiedModels.has(model)` / `.get(model)` combined: `some v` iff
the key is present, carrying the stored (possibly `null`) value. -/
def cacheLookup : Cache → JStr → Option (Option JStr)
  | [], _ => none
  | (k, v) :: rest, key => if k = key then some v else cacheLookup rest key

/-- `verifiedModels.set(model, v)`. -/
def cacheSet : Cache → JStr → Option JStr → Cache
  | [], k, v => [(k, v)]
  | (k2, v2) :: rest, k, v =>
    if k2 = k then (k, v) :: rest else (k2, v2) :: cacheSet rest k v

/-- Truthiness of a possibly-absent string (`undefined`, `null` and the
empty string are falsy). -/
def strOptTruthy : Option JStr → Bool
  | some s => !s.isEmpty
  | none => false

/-- ASCII `toLowerCase`. -/
def toLowerStr (s : JStr) : JStr := s.map Char.toLower

/-- Lines 108-117: the fallback heuristic on the lowercased name. -/
def fallbackModel (model : JStr) : JStr :=
  let ml := toLowerStr model
  if containsSub ml (S "gpt-4") || containsSub ml (S "claude-opus")
      || containsSub ml (S "405b") then
    S "meta/llama-3.1-405b-instruct"
  else if containsSub ml (S "claude") || containsSub ml (S "gemini")
      || containsSub ml (S "70b") then
    S "meta/llama-3.1-70b-instruct"
  else
    S "meta/llama-3.1-8b-instruct"

/-- Lines 77-118: resolve a public model name.  `probeOk` abstracts the
outcome of the network probe (`true` = HTTP 2xx; errors, timeouts and
non-2xx statuses all cache `null`).  Returns the backend name, the
updated cache, and the number of probe calls issued (0 or 1). -/
def resolveModel (probeOk : Bool) (cache : Cache) (model : JStr) : JStr × Cache × Nat :=
  let nim0 := lookupStr MODEL_MAPPING model
  if strOptTruthy nim0 then (nim0.getD [], cache, 0)
  else
    let r : Option JStr × Cache × Nat :=
      match cacheLookup cache model with
      | some v => (v, cache, 0)
      | none =>
        if probeOk then (some model, cacheSet cache model (some model), 1)
        else (none, cacheSet cache model none, 1)
    if strOptTruthy r.1 then (r.1.getD [], r.2.1, r.2.2)
    else (fallbackModel model, r.2.1, r.2.2)

/-! ## Request translation (src/server.js lines 121-133) -/

/-- The upstream request object (`nimRequest`). -/
structure NimRequest where
  model : JStr
  messages : JVal
  temperature : JVal
  max_tokens : JVal
  stream : JVal
  chat_template_kwargs : Option JVal

/-- JavaScript `a || b`. -/
def jsOr (v d : JVal) : JVal := if jTruthy v then v else d

/-- Lines 126-133: build the upstream request.  The spread
`...(useThinking && ...)` adds `chat_template_kwargs` only when
`useThinking` holds. -/
def buildNimRequest (useThinking : Bool) (nimModel : JStr)
    (messages temperature max_tokens stream : JVal) : NimRequest :=
  ⟨nimModel, messages,
   jsOr temperature (.num (S "0.85")),
   jsOr max_tokens (.num (S "16384")),
   jsOr stream (.bool false),
   if useThinking then some (.obj [(S "thinking", .bool true)]) else none⟩

/-! ## Request handler entry (src/server.js lines 62-146) -/

/-- Either the 400 client-input rejection or the upstream call the
handler proceeds to. -/
inductive HandlerOutcome where
  | clientError : Nat → JStr → JStr → Nat → HandlerOutcome
  | upstream : NimRequest → HandlerOutcome

/-- Lines 66-74: the `messages` validation predicate (rejects a missing
or falsy value, a non-array, and an empty array). -/
def messagesInvalid (messages : JVal) : Bool :=
  !jTruthy messages ||
    (match messages with
     | .arr xs => xs.isEmpty
     | _ => true)

/-- The 400 error message text. -/
def messagesErrMsg : JStr :=
  apos :: S "messages" ++ apos :: S " is required and must be a non-empty array"

/-- Lines 62-146 up to the upstream call: validate, resolve, translate.
The body fields arrive destructured; `model` is taken as a string (a
non-string `model` field is outside the claims).  Returns the outcome,
the cache after the call, and the number of probes issued. -/
def handleChat (probeOk : Bool) (cache : Cache) (model : JStr)
    (messages temperature max_tokens stream : JVal) :
    HandlerOutcome × Cache × Nat :=
  if messagesInvalid messages then
    (.clientError 400 messagesErrMsg (S "invalid_request_error") 400, cache, 0)
  else
    let r := resolveModel probeOk cache model
    let useThinking := ENABLE_THINKING_MODE && THINKING_CAPABLE_MODELS.contains r.1
    (.upstream (buildNimRequest useThinking r.1 messages temperature max_tokens stream),
     r.2.1, r.2.2)

/-! ## Non-streaming response builder (src/server.js lines 253-301) -/

/-- The opening trace marker `'<think>'`. -/
def thinkOpenTag : JStr := S "<think>"

/-- The closing trace marker `'</think>'`. -/
def thinkCloseTag : JStr := S "</think>"

/-- `content.includes('<think>')`: `none` models the `TypeError` of
calling `.includes` on a value without that method; an array searches
for the pattern as an element. -/
def jsIncludes (v : JVal) (pat : JStr) : Option Bool :=
  match v with
  | .str s => some (containsSub s pat)
  | .arr xs =>
    some (xs.any (fun e =>
      match e with
      | .str s => s == pat
      | _ => false))
  | _ => none

/-- `content.match(/^<think>([\s\S]*?)<\/think>\s*([\s\S]*)$/)`: the lazy
first group ends at the first closing marker, `\s*` then greedily eats
whitespace, and the second group is the remainder.  `none` models the
`TypeError` of `.match` on a non-string; `some none` is a failed match. -/
def jsMatchThink (v : JVal) : Option (Option (JStr × JStr)) :=
  match v with
  | .str s =>
    if thinkOpenTag.isPrefixOf s then
      let rest := s.drop 7
      match findSub rest thinkCloseTag with
      | some i => some (some (rest.take i, (rest.drop (i + 8)).dropWhile jsRegexWs))
      | none => some none
    else some none
  | _ => none

/-- JavaScript `String.prototype.trim()` (ASCII whitespace). -/
def trimJs (s : JStr) : JStr :=
  ((s.dropWhile jsRegexWs).reverse.dropWhile jsRegexWs).reverse

/-- `'<think>\n' + r + '\n</think>\n\n' + c`. -/
def wrapThink (r c : JStr) : JStr :=
  S "<think>\n" ++ r ++ S "\n</think>\n\n" ++ c

/-- Lines 276-280 and 290-294: assemble the outbound choice.  The read
`choice.message.role` is strict (a nullish `message` would throw). -/
def buildOutChoice (choice msg : JVal) (content2 : JVal) : Option JVal :=
  if isNullish msg then none
  else
    some (.obj [(S "index", jGetProp choice (S "index")),
                (S "message", .obj [(S "role", jGetProp msg (S "role")),
                                    (S "content", content2)]),
                (S "finish_reason", jGetProp choice (S "finish_reason"))])

/-- Lines 284-294: the fall-through path wrapping a non-empty upstream
reasoning field when trace display is on. -/
def mapChoiceTail (showR : Bool) (choice msg content reasoning : JVal) : Option JVal :=
  let content2 :=
    if showR && jTruthy reasoning then
      JVal.str (S "<think>\n" ++ jsToString reasoning ++ S "\n</think>\n\n" ++ jsToString content)
    else content
  buildOutChoice choice msg content2

/-- Lines 258-295: translate one upstream choice.  `none` models a
thrown `TypeError` (which would turn the whole response into a 500). -/
def mapChoice (showR useThinking : Bool) (choice : JVal) : Option JVal :=
  if isNullish choice then none
  else
    let msg := jGetProp choice (S "message")
    let content := jsOr (if isNullish msg then JVal.undefined else jGetProp msg (S "content"))
      (JVal.str [])
    let reasoning := jsOr (if isNullish msg then JVal.undefined
      else jGetProp msg (S "reasoning_content")) (JVal.str [])
    if !useThinking && !jTruthy reasoning then
      match jsIncludes content thinkOpenTag with
      | none => none
      | some false => mapChoiceTail showR choice msg content reasoning
      | some true =>
        match jsMatchThink content with
        | none => none
        | some none => mapChoiceTail showR choice msg content reasoning
        | some (some (g1, g2)) =>
          let er := trimJs g1
          let ec := trimJs g2
          let content2 : JVal :=
            if showR then .str (wrapThink er ec) else .str ec
          buildOutChoice choice msg content2
    else mapChoiceTail showR choice msg content reasoning

/-! ## Byte-level chunk arrival

The upstream stream delivers `Buffer` chunks; line 158 decodes each
chunk separately with `chunk.toString()`, i.e. UTF-8 with U+FFFD
replacement for invalid or truncated sequences. -/

/-- The replacement character U+FFFD. -/
def replChar : Char := Char.ofNat 0xFFFD

/-- UTF-8 continuation byte test. -/
def isCont (b : Nat) : Bool := 0x80 ≤ b && b ≤ 0xBF

/-- Range check for the second byte of a three-byte sequence. -/
def cont2Ok (b b2 : Nat) : Bool :=
  if b = 0xE0 then 0xA0 ≤ b2 && b2 ≤ 0xBF
  else if b = 0xED then 0x80 ≤ b2 && b2 ≤ 0x9F
  else isCont b2

/-- Range check for the second byte of a four-byte sequence. -/
def cont3Ok (b b2 : Nat) : Bool :=
  if b = 0xF0 then 0x90 ≤ b2 && b2 ≤ 0xBF
  else if b = 0xF4 then 0x80 ≤ b2 && b2 ≤ 0x8F
  else isCont b2

/-- WHATWG UTF-8 decoding with one replacement character per maximal
invalid subsequence (fuel-based; every step consumes at least one byte,
so fuel one beyond the byte count never runs out). -/
def utf8DecodeFuel : Nat → List Nat → List Char
  | 0, _ => []
  | _, [] => []
  | fuel + 1, b :: rest =>
    if b < 0x80 then Char.ofNat b :: utf8DecodeFuel fuel rest
    else if 0xC2 ≤ b && b ≤ 0xDF then
      match rest with
      | b2 :: rest2 =>
        if isCont b2 then Char.ofNat ((b - 0xC0) * 64 + (b2 - 0x80)) :: utf8DecodeFuel fuel rest2
        else replChar :: utf8DecodeFuel fuel rest
      | [] => [replChar]
    else if 0xE0 ≤ b && b ≤ 0xEF then
      match rest with
      | b2 :: rest2 =>
        if cont2Ok b b2 then
          match rest2 with
          | b3 :: rest3 =>
            if isCont b3 then
              Char.ofNat ((b - 0xE0) * 4096 + (b2 - 0x80) * 64 + (b3 - 0x80))
                :: utf8DecodeFuel fuel rest3
            else replChar :: utf8DecodeFuel fuel rest2
          | [] => [replChar]
        else replChar :: utf8DecodeFuel fuel rest
      | [] => [replChar]
    else if 0xF0 ≤ b && b ≤ 0xF4 then
      match rest with
      | b2 :: rest2 =>
        if cont3Ok b b2 then
          match rest2 with
          | b3 :: rest3 =>
            if isCont b3 then
              match rest3 with
              | b4 :: rest4 =>
                if isCont b4 then
                  Char.ofNat ((b - 0xF0) * 262144 + (b2 - 0x80) * 4096
                    + (b3 - 0x80) * 64 + (b4 - 0x80)) :: utf8DecodeFuel fuel rest4
                else replChar :: utf8DecodeFuel fuel rest3
              | [] => [replChar]
            else replChar :: utf8DecodeFuel fuel rest2
          | [] => [replChar]
        else replChar :: utf8DecodeFuel fuel rest
      | [] => [replChar]
    else replChar :: utf8DecodeFuel fuel rest

/-- `Buffer.prototype.toString('utf8')`. -/
def utf8Decode (bytes : List Nat) : List Char :=
  utf8DecodeFuel (bytes.length + 1) bytes

/-- One `data` callback fed raw bytes: line 158's `chunk.toString()`
then the string-level processing. -/
def processChunkBytes (showR : Bool) (st : StreamState) (bytes : List Nat) :
    StreamState × List JStr :=
  processChunk showR st (utf8Decode bytes)

/-- Feed a sequence of byte chunks. -/
def processChunksBytes (showR : Bool) : StreamState → List (List Nat) → StreamState × List JStr
  | st, [] => (st, [])
  | st, c :: cs =>
    let r1 := processChunkBytes showR st c
    let r2 := processChunksBytes showR r1.1 cs
    (r2.1, r1.2 ++ r2.2)

/-! ## Lemmas: line splitting and chunk composition -/

theorem breakLines_nil : breakLines [] = ([], []) := rfl

theorem breakLines_cons_nl (rest : JStr) :
    breakLines ('\n' :: rest) = ([] :: (breakLines rest).1, (breakLines rest).2) := by
  simp [breakLines]

theorem breakLines_cons_ne_nil (c : Char) (rest : JStr) (h : ¬c = '\n')
    (h2 : (breakLines rest).1 = []) :
    breakLines (c :: rest) = ([], c :: (breakLines rest).2) := by
  simp only [breakLines, if_neg h]
  rcases hbl : breakLines rest with ⟨l1, l2⟩
  simp_all

theorem breakLines_cons_ne_cons (c : Char) (rest : JStr) (h : ¬c = '\n')
    (l : JStr) (ls : List JStr) (h2 : (breakLines rest).1 = l :: ls) :
    breakLines (c :: rest) = ((c :: l) :: ls, (breakLines rest).2) := by
  simp only [breakLines, if_neg h]
  rcases hbl : breakLines rest with ⟨l1, l2⟩
  simp_all

theorem breakLines_fst_nil (x : JStr) (h : (breakLines x).1 = []) :
    (breakLines x).2 = x := by
  induction x with
  | nil => rfl
  | cons c rest ih =>
    by_cases hc : c = '\n'
    · subst hc
      rw [breakLines_cons_nl] at h
      simp at h
    · cases h2 : (breakLines rest).1 with
      | nil =>
        rw [breakLines_cons_ne_nil c rest hc h2]
        simp [ih h2]
      | cons l ls =>
        rw [breakLines_cons_ne_cons c rest hc l ls h2] at h
        simp at h

theorem breakLines_append (x y : JStr) :
    breakLines (x ++ y) =
      ((breakLines x).1 ++ (breakLines ((breakLines x).2 ++ y)).1,
       (breakLines ((breakLines x).2 ++ y)).2) := by
  induction x with
  | nil => simp [breakLines_nil]
  | cons c x' ih =>
    by_cases hc : c = '\n'
    · subst hc
      rw [List.cons_append, breakLines_cons_nl, breakLines_cons_nl, ih]
      simp
    · cases h1 : (breakLines x').1 with
      | nil =>
        rw [breakLines_cons_ne_nil c x' hc h1, breakLines_fst_nil x' h1]
        simp
      | cons l ls =>
        have hx : breakLines (c :: x') = ((c :: l) :: ls, (breakLines x').2) :=
          breakLines_cons_ne_cons c x' hc l ls h1
        have hxy : (breakLines (x' ++ y)).1 =
            l :: (ls ++ (breakLines ((breakLines x').2 ++ y)).1) := by
          rw [ih, h1]; simp
        rw [List.cons_append,
          breakLines_cons_ne_cons c (x' ++ y) hc _ _ hxy, hx]
        simp [ih]

theorem foldLines_append (showR : Bool) (rs : Bool) (l1 l2 : List JStr) :
    foldLines showR rs (l1 ++ l2) =
      ((foldLines showR (foldLines showR rs l1).1 l2).1,
       (foldLines showR rs l1).2 ++ (foldLines showR (foldLines showR rs l1).1 l2).2) := by
  induction l1 generalizing rs with
  | nil => simp [foldLines]
  | cons l ls ih =>
    simp only [List.cons_append, foldLines, List.append_eq]
    rw [ih]
    simp [List.append_assoc]

theorem splitNl_dropLast (s : JStr) : (splitNl s).dropLast = (breakLines s).1 := by
  simp [splitNl]

theorem splitNl_getLast (s : JStr) : (splitNl s).getLast?.getD [] = (breakLines s).2 := by
  simp [splitNl]

theorem processChunk_comp (showR : Bool) (st : StreamState) (a b : JStr) :
    ((processChunk showR (processChunk showR st a).1 b).1,
     (processChunk showR st a).2 ++ (processChunk showR (processChunk showR st a).1 b).2) =
    processChunk showR st (a ++ b) := by
  simp only [processChunk, splitNl_dropLast, splitNl_getLast]
  rw [← List.append_assoc, breakLines_append (st.buffer ++ a) b]
  simp only [foldLines_append]

/-- C2, amended half: invariance at the string level.  Feeding a
non-empty list of chunks equals feeding their concatenation as one
chunk, from any state. -/
theorem rechunkInvariance (showR : Bool) (st : StreamState) (c : JStr) (cs : List JStr) :
    processChunks showR st (c :: cs) = processChunk showR st ((c :: cs).flatten) := by
  induction cs generalizing st c with
  | nil =>
    show ((processChunks showR (processChunk showR st c).1 []).1,
      (processChunk showR st c).2 ++ (processChunks showR (processChunk showR st c).1 []).2) = _
    simp [processChunks, List.flatten]
  | cons c2 cs' ih =>
    show ((processChunks showR (processChunk showR st c).1 (c2 :: cs')).1,
      (processChunk showR st c).2 ++
        (processChunks showR (processChunk showR st c).1 (c2 :: cs')).2) = _
    rw [ih]
    rw [processChunk_comp]
    simp

/-! ## Concrete stream fixtures -/

/-- Wrap text in braces. -/
def objWrap (s : JStr) : JStr := lbrace :: (s ++ [rbrace])

/-- An SSE event line (with terminating blank line) whose payload is a
single-choice delta with one string field, given as raw JSON text. -/
def deltaLine (field body : String) : JStr :=
  S "data: " ++
    objWrap (S "\"choices\":[" ++
      objWrap (S "\"delta\":" ++ objWrap (S ("\"" ++ field ++ "\":\"" ++ body ++ "\""))) ++
      S "]") ++
  S "\n\n"

/-- The upstream chunk carrying the delta sequence
reasoning `a`, reasoning `b`, content `c`. -/
def abcChunk : JStr :=
  deltaLine "reasoning_content" "a" ++ deltaLine "reasoning_content" "b" ++
    deltaLine "content" "c"

/-- Expected third output event: the closing marker alone. -/
def abcCloseOut : JStr :=
  S "data: " ++
    objWrap (S "\"choices\":[" ++
      objWrap (S "\"index\":0,\"delta\":" ++
        objWrap (S "\"content\":\"</think>\\n\\n\"") ++
        S ",\"finish_reason\":null") ++
      S "]") ++
  S "\n\n"

/-- A payload whose first-choice delta exists and carries content `c`. -/
def contentCData : JVal :=
  .obj [(S "choices", .arr [.obj [(S "delta", .obj [(S "content", .str (S "c"))])]])]

/-! ## C1 -/

/-- C1: with trace display enabled, while a reasoning section is open
(`reasoningStarted` true), a delta carrying truthy content and no
truthy reasoning makes the transformer emit the closing marker as its
own separate event (built by `closeEventFull`, whose delta content is
exactly `'</think>\n\n'`) before the event carrying the content, and
reset the flag; and the concrete sequence
[reasoning `a`, reasoning `b`, content `c`] produces exactly the four
events: `<think>\na`, `b`, the stand-alone closing event, then `c` —
one opening marker, one closing marker in its own event, visible text
`a`, `b`, `c` in order. -/
theorem reasoningCloseSeparateEvent :
    (∀ (data : JVal) (dfs : List (JStr × JVal)) (s : JStr),
      chainDelta data = JVal.obj dfs →
      jTruthy (jGetProp (JVal.obj dfs) (S "reasoning_content")) = false →
      jGetProp (JVal.obj dfs) (S "content") = JVal.str s →
      s ≠ [] →
      transformDelta true true data =
        (false, [writeEvt (closeEventFull data)],
          deleteDeltaReasoning (setDeltaContent data (JVal.str s)))) ∧
    processChunks true ⟨[], false⟩ [abcChunk] =
      (⟨[], false⟩, [deltaLine "content" "<think>\\na", deltaLine "content" "b",
        abcCloseOut, deltaLine "content" "c"]) := by
  constructor
  · intro data dfs s h hr hc hs
    have htr : jTruthy (chainDelta data) = true := by rw [h]; rfl
    cases s with
    | nil => exact absurd rfl hs
    | cons c0 s' =>
      simp only [transformDelta, h, hr, hc]
      simp [jTruthy, jsAdd, jsToString, List.isEmpty]
  · decide

/-- Closed instance of the quantified half of C1: the content-only delta
payload `contentCData` with the flag open yields the stand-alone closing
event then the content event. -/
theorem reasoningCloseSeparateEventWitness :
    chainDelta contentCData = JVal.obj [(S "content", JVal.str (S "c"))] ∧
    transformDelta true true contentCData =
      (false, [writeEvt (closeEventFull contentCData)],
        deleteDeltaReasoning (setDeltaContent contentCData (JVal.str (S "c")))) := by
  refine ⟨rfl, ?_⟩
  exact reasoningCloseSeparateEvent.1 contentCData
    [(S "content", JVal.str (S "c"))] (S "c") rfl rfl rfl (by decide)

/-! ## C2 -/

/-- ASCII text to bytes. -/
def asciiBytes (s : String) : List Nat := s.toList.map Char.toNat

/-- Bytes of `data: {"choices":[{"delta":{"content":"` — the head of an
event whose content text is the two-byte UTF-8 character `é`. -/
def utf8ExHead : List Nat :=
  asciiBytes "data: " ++ [0x7b] ++ asciiBytes "\"choices\":[" ++ [0x7b]
    ++ asciiBytes "\"delta\":" ++ [0x7b] ++ asciiBytes "\"content\":\""

/-- Bytes closing that event: `"}}]}` and the newline. -/
def utf8ExTail : List Nat :=
  asciiBytes "\"" ++ [0x7d, 0x7d] ++ asciiBytes "]" ++ [0x7d] ++ asciiBytes "\n"

/-- C2 counterexample: the same upstream byte sequence fed whole versus
split between the two bytes of the UTF-8 character `é` (0xC3 0xA9 —
a partition "inside a single event's JSON payload") produces different
output: `chunk.toString()` turns each half into a U+FFFD replacement
character, so the forwarded content text differs. -/
theorem rechunkByteSplitCounterexample :
    (processChunksBytes false ⟨[], false⟩ [utf8ExHead ++ [0xC3], [0xA9] ++ utf8ExTail]).2 ≠
      (processChunksBytes false ⟨[], false⟩ [utf8ExHead ++ [0xC3, 0xA9] ++ utf8ExTail]).2 := by
  decide

/-! ## C9 -/

/-- C9: a complete event-data line (prefix `data:`, no `[DONE]`) whose
payload fails to parse as JSON is dropped: it emits nothing and leaves
`reasoningStarted` unchanged (the buffer is untouched by per-line
processing); consequently deleting it from any line sequence leaves the
processing of all other lines unchanged. -/
theorem malformedLineDropped :
    (∀ (showR rs : Bool) (rawLine : JStr),
      dataPrefix.isPrefixOf (stripTrailingCR rawLine) = true →
      containsSub (stripTrailingCR rawLine) doneTag = false →
      (parseJson (stripDataPrefix (stripTrailingCR rawLine))).isNone = true →
      processLine showR rs rawLine = (rs, [])) ∧
    (∀ (showR rs : Bool) (rawLine : JStr) (ls1 ls2 : List JStr),
      dataPrefix.isPrefixOf (stripTrailingCR rawLine) = true →
      containsSub (stripTrailingCR rawLine) doneTag = false →
      (parseJson (stripDataPrefix (stripTrailingCR rawLine))).isNone = true →
      foldLines showR rs (ls1 ++ rawLine :: ls2) = foldLines showR rs (ls1 ++ ls2)) := by
  have base : ∀ (showR rs : Bool) (rawLine : JStr),
      dataPrefix.isPrefixOf (stripTrailingCR rawLine) = true →
      containsSub (stripTrailingCR rawLine) doneTag = false →
      (parseJson (stripDataPrefix (stripTrailingCR rawLine))).isNone = true →
      processLine showR rs rawLine = (rs, []) := by
    intro showR rs rawLine h1 h2 h3
    rw [Option.isNone_iff_eq_none] at h3
    simp [processLine, h1, h2, h3]
  refine ⟨base, ?_⟩
  intro showR rs rawLine ls1 ls2 h1 h2 h3
  induction ls1 generalizing rs with
  | nil =>
    simp only [List.nil_append, foldLines, base showR rs rawLine h1 h2 h3]
  | cons l ls ih =>
    simp only [List.cons_append, foldLines, List.append_eq]
    rw [ih]

/-- Closed instance of C9: the line `data: notjson` is dropped, alone
and in the middle of a healthy sequence. -/
theorem malformedLineDroppedWitness :
    processLine true true (S "data: notjson") = (true, []) ∧
    foldLines true false [deltaLine "content" "x", S "data: notjson"] =
      foldLines true false [deltaLine "content" "x"] := by
  constructor
  · exact malformedLineDropped.1 true true (S "data: notjson") (by decide) (by decide)
      (by decide)
  · exact malformedLineDropped.2 true false (S "data: notjson")
      [deltaLine "content" "x"] [] (by decide) (by decide) (by decide)

/-! ## C10 -/

/-- C10: any complete line that starts with `data:` and contains the
substring `[DONE]` anywhere — in particular inside an ordinary delta's
JSON payload — is treated as the termination signal: with a reasoning
section open (and display on) the closing event is written first, then
`data: [DONE]`, and the line's own payload is never forwarded. -/
theorem doneDetectionAnywhere (showR rs : Bool) (rawLine : JStr)
    (h1 : dataPrefix.isPrefixOf (stripTrailingCR rawLine) = true)
    (h2 : containsSub (stripTrailingCR rawLine) doneTag = true) :
    processLine showR rs rawLine =
      if showR && rs then (false, [writeEvt closeEventSimple, doneOut])
      else (rs, [doneOut]) := by
  simp [processLine, h1, h2]

/-- A well-formed delta event whose generated content text contains
`[DONE]`. -/
def doneInsideLine : JStr :=
  S "data: " ++
    objWrap (S "\"choices\":[" ++
      objWrap (S "\"delta\":" ++ objWrap (S "\"content\":\"x [DONE] y\"")) ++
      S "]")

/-- Closed instance of C10: the delta whose content text merely mentions
`[DONE]` is swallowed and replaced by the termination signal. -/
theorem doneDetectionAnywhereWitness :
    processLine true true doneInsideLine = (false, [writeEvt closeEventSimple, doneOut]) := by
  rw [doneDetectionAnywhere true true doneInsideLine (by decide) (by decide)]
  simp

/-! ## C3 -/

theorem removeObjField_cons_self (kR : JStr) (v2 : JVal) (rest : List (JStr × JVal)) :
    removeObjField ((kR, v2) :: rest) kR = removeObjField rest kR := by
  simp [removeObjField, List.filter_cons]

theorem removeObjField_cons_ne (k2 kR : JStr) (v2 : JVal) (rest : List (JStr × JVal))
    (h : k2 ≠ kR) :
    removeObjField ((k2, v2) :: rest) kR = (k2, v2) :: removeObjField rest kR := by
  simp [removeObjField, List.filter_cons, h]

theorem lookupField_mapObjField (fs : List (JStr × JVal)) (k : JStr) (g : JVal → JVal)
    (v : JVal) (h : lookupField fs k = some v) :
    lookupField (mapObjField fs k g) k = some (g v) := by
  induction fs with
  | nil => simp [lookupField] at h
  | cons p rest ih =>
    obtain ⟨k2, v2⟩ := p
    by_cases hk : k2 = k
    · subst hk
      simp [lookupField] at h
      simp [mapObjField, lookupField, h]
    · simp only [lookupField, if_neg hk] at h
      simp [mapObjField, lookupField, hk, ih h]

theorem lookupField_setObjField_self (fs : List (JStr × JVal)) (k : JStr) (v : JVal) :
    lookupField (setObjField fs k v) k = some v := by
  induction fs with
  | nil => simp [setObjField, lookupField]
  | cons p rest ih =>
    obtain ⟨k2, v2⟩ := p
    by_cases hk : k2 = k
    · subst hk; simp [setObjField, lookupField]
    · simp [setObjField, lookupField, hk, ih]

theorem lookupField_removeObjField_self (fs : List (JStr × JVal)) (k : JStr) :
    lookupField (removeObjField fs k) k = none := by
  induction fs with
  | nil => simp [removeObjField, lookupField]
  | cons p rest ih =>
    obtain ⟨k2, v2⟩ := p
    by_cases hk : k2 = k
    · subst hk
      rw [removeObjField_cons_self]
      exact ih
    · rw [removeObjField_cons_ne k2 k v2 rest hk]
      simp [lookupField, hk, ih]

theorem lookupField_removeObjField_ne (fs : List (JStr × JVal)) (kR k : JStr)
    (h : k ≠ kR) :
    lookupField (removeObjField fs kR) k = lookupField fs k := by
  induction fs with
  | nil => simp [removeObjField, lookupField]
  | cons p rest ih =>
    obtain ⟨k2, v2⟩ := p
    by_cases hr : k2 = kR
    · have hk : ¬k2 = k := fun he => h (he ▸ hr)
      rw [hr, removeObjField_cons_self]
      rw [hr] at hk
      simp [lookupField, hk, ih]
    · rw [removeObjField_cons_ne k2 kR v2 rest hr]
      by_cases hk : k2 = k
      · subst hk; simp [lookupField]
      · simp [lookupField, hk, ih]

/-- Reading `data.choices?.[0]?.delta` after a functional write through
the same path sees the written value, whenever the read on the original
payload yielded a truthy value. -/
theorem chainDelta_update (f : JVal → JVal) (data d : JVal)
    (h : chainDelta data = d) (hd : jTruthy d = true) :
    chainDelta (updateChoice0Delta f data) = f d := by
  cases data with
  | undefined => rw [← h] at hd; simp [chainDelta, jGetProp, isNullish, jTruthy] at hd
  | null => rw [← h] at hd; simp [chainDelta, jGetProp, isNullish, jTruthy] at hd
  | bool b => rw [← h] at hd; simp [chainDelta, jGetProp, isNullish, jTruthy] at hd
  | num raw => rw [← h] at hd; simp [chainDelta, jGetProp, isNullish, jTruthy] at hd
  | str cs => rw [← h] at hd; simp [chainDelta, jGetProp, isNullish, jTruthy] at hd
  | arr xs => rw [← h] at hd; simp [chainDelta, jGetProp, isNullish, jTruthy] at hd
  | obj fs =>
    cases hcv : lookupField fs (S "choices") with
    | none =>
      rw [← h] at hd
      simp [chainDelta, jGetProp, hcv, isNullish, jTruthy] at hd
    | some cv =>
      cases cv with
      | undefined =>
        rw [← h] at hd
        simp [chainDelta, jGetProp, hcv, isNullish, jTruthy] at hd
      | null =>
        rw [← h] at hd
        simp [chainDelta, jGetProp, hcv, isNullish, jTruthy] at hd
      | bool b =>
        rw [← h] at hd
        simp [chainDelta, jGetProp, hcv, isNullish, jIndex0, jTruthy] at hd
      | num raw =>
        rw [← h] at hd
        simp [chainDelta, jGetProp, hcv, isNullish, jIndex0, jTruthy] at hd
      | str cs =>
        cases cs with
        | nil =>
          rw [← h] at hd
          simp [chainDelta, jGetProp, hcv, isNullish, jIndex0, jTruthy] at hd
        | cons c0 cs' =>
          rw [← h] at hd
          simp [chainDelta, jGetProp, hcv, isNullish, jIndex0, jTruthy] at hd
      | arr es =>
        cases es with
        | nil =>
          rw [← h] at hd
          simp [chainDelta, jGetProp, hcv, isNullish, jIndex0, jTruthy] at hd
        | cons e0 rest =>
          cases e0 with
          | obj efs =>
            cases hdl : lookupField efs (S "delta") with
            | none =>
              rw [← h] at hd
              simp [chainDelta, jGetProp, hcv, hdl, isNullish, jIndex0, jTruthy] at hd
            | some d0 =>
              have hd0 : d0 = d := by
                rw [← h]
                simp [chainDelta, jGetProp, hcv, isNullish, jIndex0, hdl]
              subst hd0
              simp [updateChoice0Delta, chainDelta, jGetProp,
                lookupField_mapObjField fs _ _ _ hcv, updateChoices0, updateChoiceElem,
                isNullish, jIndex0, lookupField_mapObjField efs _ _ _ hdl]
          | undefined =>
            rw [← h] at hd
            simp [chainDelta, jGetProp, hcv, isNullish, jIndex0, jTruthy] at hd
          | null =>
            rw [← h] at hd
            simp [chainDelta, jGetProp, hcv, isNullish, jIndex0, jTruthy] at hd
          | bool b =>
            rw [← h] at hd
            simp [chainDelta, jGetProp, hcv, isNullish, jIndex0, jTruthy] at hd
          | num raw =>
            rw [← h] at hd
            simp [chainDelta, jGetProp, hcv, isNullish, jIndex0, jTruthy] at hd
          | str cs =>
            rw [← h] at hd
            simp [chainDelta, jGetProp, hcv, isNullish, jIndex0, jTruthy] at hd
          | arr xs =>
            rw [← h] at hd
            simp [chainDelta, jGetProp, hcv, isNullish, jIndex0, jTruthy] at hd
      | obj cfs =>
        cases h0 : lookupField cfs (S "0") with
        | none =>
          rw [← h] at hd
          simp [chainDelta, jGetProp, hcv, h0, isNullish, jIndex0, jTruthy] at hd
        | some e0 =>
          cases e0 with
          | obj efs =>
            cases hdl : lookupField efs (S "delta") with
            | none =>
              rw [← h] at hd
              simp [chainDelta, jGetProp, hcv, h0, hdl, isNullish, jIndex0, jTruthy] at hd
            | some d0 =>
              have hd0 : d0 = d := by
                rw [← h]
                simp [chainDelta, jGetProp, hcv, h0, isNullish, jIndex0, hdl]
              subst hd0
              simp [updateChoice0Delta, chainDelta, jGetProp,
                lookupField_mapObjField fs _ _ _ hcv, updateChoices0,
                lookupField_mapObjField cfs _ _ _ h0, updateChoiceElem,
                isNullish, jIndex0, lookupField_mapObjField efs _ _ _ hdl]
          | undefined =>
            rw [← h] at hd
            simp [chainDelta, jGetProp, hcv, h0, isNullish, jIndex0, jTruthy] at hd
          | null =>
            rw [← h] at hd
            simp [chainDelta, jGetProp, hcv, h0, isNullish, jIndex0, jTruthy] at hd
          | bool b =>
            rw [← h] at hd
            simp [chainDelta, jGetProp, hcv, h0, isNullish, jIndex0, jTruthy] at hd
          | num raw =>
            rw [← h] at hd
            simp [chainDelta, jGetProp, hcv, h0, isNullish, jIndex0, jTruthy] at hd
          | str cs =>
            rw [← h] at hd
            simp [chainDelta, jGetProp, hcv, h0, isNullish, jIndex0, jTruthy] at hd
          | arr xs =>
            rw [← h] at hd
            simp [chainDelta, jGetProp, hcv, h0, isNullish, jIndex0, jTruthy] at hd

/-- Reading the delta after the content write and the reasoning delete. -/
theorem chainDelta_delset (data : JVal) (dfs : List (JStr × JVal)) (X : JVal)
    (h : chainDelta data = JVal.obj dfs) :
    chainDelta (deleteDeltaReasoning (setDeltaContent data X)) =
      JVal.obj (removeObjField (setObjField dfs (S "content") X) (S "reasoning_content")) := by
  have h1 : chainDelta (setDeltaContent data X) =
      JVal.obj (setObjField dfs (S "content") X) := by
    have := chainDelta_update
      (updateDeltaObj (fun dfs2 => setObjField dfs2 (S "content") X)) data
      (JVal.obj dfs) h (by simp [jTruthy])
    simpa [setDeltaContent, updateDeltaObj] using this
  have h2 := chainDelta_update
    (updateDeltaObj (fun dfs2 => removeObjField dfs2 (S "reasoning_content")))
    (setDeltaContent data X) (JVal.obj (setObjField dfs (S "content") X)) h1
    (by simp [jTruthy])
  simpa [deleteDeltaReasoning, updateDeltaObj] using h2

/-- The first component of the `combinedContent` accumulator before the
content concatenation (mirrors lines 200-206). -/
def transformCr (rs : Bool) (reasoning content : JVal) : JVal :=
  if jTruthy reasoning
      && !(if rs && !jTruthy reasoning && jTruthy content then false else rs) then
    jsAdd (.str thinkOpenNl) reasoning
  else if jTruthy reasoning then reasoning
  else JVal.str []

/-- The content value the transformer writes into the delta, as a
function of the two channel values (mirrors lines 187-214). -/
def transformContentVal (showR rs : Bool) (reasoning content : JVal) : JVal :=
  if showR then
    if jTruthy content then jsAdd (transformCr rs reasoning content) content
    else transformCr rs reasoning content
  else if jTruthy content then content else JVal.str []

theorem transformDelta_payload (showR rs : Bool) (data : JVal)
    (dfs : List (JStr × JVal)) (h : chainDelta data = JVal.obj dfs) :
    (transformDelta showR rs data).2.2 =
      deleteDeltaReasoning (setDeltaContent data
        (transformContentVal showR rs (jGetProp (JVal.obj dfs) (S "reasoning_content"))
          (jGetProp (JVal.obj dfs) (S "content")))) := by
  have hobj : jTruthy (JVal.obj dfs) = true := rfl
  by_cases hs : showR
  · by_cases hr : jTruthy (jGetProp (JVal.obj dfs) (S "reasoning_content")) <;>
      by_cases hc : jTruthy (jGetProp (JVal.obj dfs) (S "content")) <;>
      by_cases hrs : rs <;>
      simp [transformDelta, transformContentVal, transformCr, h, hobj, hs, hr, hc, hrs]
  · simp [transformDelta, transformContentVal, h, hobj, hs]

theorem jsAdd_ne_undefinedV (a b : JVal) : jsAdd a b ≠ JVal.undefined := by
  simp only [jsAdd]
  split
  · simp
  · split <;> simp

theorem jTruthy_ne_undefinedV (v : JVal) (h : jTruthy v = true) : v ≠ JVal.undefined := by
  intro he; subst he; simp [jTruthy] at h

theorem transformCr_ne_undefinedV (rs : Bool) (reasoning content : JVal) :
    transformCr rs reasoning content ≠ JVal.undefined := by
  by_cases hr : jTruthy reasoning <;> by_cases hc : jTruthy content <;> cases rs <;>
    simp [transformCr, hr, hc] <;>
    first
      | exact jsAdd_ne_undefinedV _ _
      | exact jTruthy_ne_undefinedV _ hr

theorem transformContentVal_ne_undefinedV (showR rs : Bool) (reasoning content : JVal) :
    transformContentVal showR rs reasoning content ≠ JVal.undefined := by
  by_cases hs : showR <;> by_cases hc : jTruthy content <;>
    simp [transformContentVal, hs, hc] <;>
    first
      | exact jsAdd_ne_undefinedV _ _
      | exact transformCr_ne_undefinedV _ _ _
      | exact jTruthy_ne_undefinedV _ hc

theorem transformContentVal_empty (showR rs : Bool) (reasoning content : JVal)
    (hr : jTruthy reasoning = false) (hc : jTruthy content = false) :
    transformContentVal showR rs reasoning content = JVal.str [] := by
  by_cases hs : showR <;> simp [transformContentVal, transformCr, hs, hr, hc]

/-- C3, amended: for every forwarded event whose first choice has an
object-valued delta, the forwarded delta has no `reasoning_content`
member, has a `content` member, and that member is the empty string when
neither channel was truthy — in both display modes.  (The claim as
stated fails for payloads whose reasoning sits outside the first
choice's delta; see the counterexample.) -/
theorem forwardDeltaFieldsAmended (showR rs : Bool) (data : JVal)
    (dfs : List (JStr × JVal)) (h : chainDelta data = JVal.obj dfs) :
    jGetProp (chainDelta (transformDelta showR rs data).2.2) (S "reasoning_content")
        = JVal.undefined ∧
    jGetProp (chainDelta (transformDelta showR rs data).2.2) (S "content") ≠ JVal.undefined ∧
    (jTruthy (jGetProp (JVal.obj dfs) (S "reasoning_content")) = false →
     jTruthy (jGetProp (JVal.obj dfs) (S "content")) = false →
     jGetProp (chainDelta (transformDelta showR rs data).2.2) (S "content")
        = JVal.str []) := by
  rw [transformDelta_payload showR rs data dfs h, chainDelta_delset data dfs _ h]
  have hContentNe : S "content" ≠ S "reasoning_content" := by decide
  refine ⟨?_, ?_, ?_⟩
  · simp [jGetProp, lookupField_removeObjField_self]
  · generalize hX : transformContentVal showR rs
      (jGetProp (JVal.obj dfs) (S "reasoning_content"))
      (jGetProp (JVal.obj dfs) (S "content")) = X
    simp only [jGetProp, lookupField_removeObjField_ne _ _ _ hContentNe,
      lookupField_setObjField_self]
    exact hX ▸ transformContentVal_ne_undefinedV showR rs _ _
  · intro hr hc
    rw [transformContentVal_empty showR rs _ _ hr hc]
    simp [jGetProp, lookupField_removeObjField_ne _ _ _ hContentNe,
      lookupField_setObjField_self]

/-- Closed instance of the amended C3 statement at a concrete payload. -/
theorem forwardDeltaFieldsAmendedWitness :
    jGetProp (chainDelta (transformDelta false false contentCData).2.2)
        (S "reasoning_content") = JVal.undefined ∧
    jGetProp (chainDelta (transformDelta false false contentCData).2.2)
        (S "content") ≠ JVal.undefined := by
  have := forwardDeltaFieldsAmended false false contentCData
    [(S "content", JVal.str (S "c"))] rfl
  exact ⟨this.1, this.2.1⟩

/-- The event whose first choice carries content and whose second choice
carries reasoning. -/
def dualChoiceLine : JStr :=
  S "data: " ++
    objWrap (S "\"choices\":[" ++
      objWrap (S "\"delta\":" ++ objWrap (S "\"content\":\"x\"")) ++ S "," ++
      objWrap (S "\"delta\":" ++ objWrap (S "\"reasoning_content\":\"r\"")) ++
      S "]")

/-- C3 counterexample: a successfully parsed and forwarded event whose
second choice carries `reasoning_content` — the transformer touches only
the first choice, so the forwarded payload (exactly one event, in either
display mode) still contains the reasoning field. -/
theorem forwardKeepsSecondChoiceReasoning :
    (processLine false false dualChoiceLine).2.map
        (fun e => containsSub e (S "reasoning_content")) = [true] ∧
    (processLine true false dualChoiceLine).2.map
        (fun e => containsSub e (S "reasoning_content")) = [true] := by
  decide

/-! ## C4 -/

theorem containsSub_of_prefix (s pat : JStr) (h : pat.isPrefixOf s = true) :
    containsSub s pat = true := by
  cases s with
  | nil =>
    cases pat with
    | nil => simp [containsSub]
    | cons c cs => simp [List.isPrefixOf] at h
  | cons c cs => simp [containsSub, h]

/-- The concrete choice of the testable property: a non-thinking model
answered with its trace inline in plain text. -/
def inlineThinkChoice : JVal :=
  .obj [(S "index", .num (S "0")),
        (S "message", .obj [(S "role", .str (S "assistant")),
                            (S "content", .str (S "<think>\nX\n</think>\n\nY"))]),
        (S "finish_reason", .str (S "stop"))]

/-- C4: for a choice of a non-thinking-eligible model whose upstream
reasoning channel is falsy and whose content starts with `<think>` and
contains `</think>`, the builder extracts the text up to the first
closing marker (trimmed) as reasoning and the trimmed remainder as the
true content, wrapping when trace display is on and keeping only the
remainder when it is off; concretely, `"<think>\nX\n</think>\n\nY"`
with display off yields output content exactly `"Y"`. -/
theorem inlineThinkExtraction :
    (∀ (showR : Bool) (cfs mfs : List (JStr × JVal)) (s : JStr) (i : Nat),
      jGetProp (JVal.obj cfs) (S "message") = JVal.obj mfs →
      jGetProp (JVal.obj mfs) (S "content") = JVal.str s →
      jTruthy (jGetProp (JVal.obj mfs) (S "reasoning_content")) = false →
      thinkOpenTag.isPrefixOf s = true →
      findSub (s.drop 7) thinkCloseTag = some i →
      mapChoice showR false (JVal.obj cfs) =
        buildOutChoice (JVal.obj cfs) (JVal.obj mfs)
          (if showR then
            JVal.str (wrapThink (trimJs ((s.drop 7).take i))
              (trimJs (((s.drop 7).drop (i + 8)).dropWhile jsRegexWs)))
          else JVal.str (trimJs (((s.drop 7).drop (i + 8)).dropWhile jsRegexWs)))) ∧
    mapChoice false false inlineThinkChoice =
      some (.obj [(S "index", .num (S "0")),
        (S "message", .obj [(S "role", .str (S "assistant")),
                            (S "content", .str (S "Y"))]),
        (S "finish_reason", .str (S "stop"))]) := by
  constructor
  · intro showR cfs mfs s i h1 h2 h3 h4 h5
    cases s with
    | nil => simp [thinkOpenTag, S, List.isPrefixOf] at h4
    | cons c0 s2 =>
      have hb : jsOr (jGetProp (JVal.obj mfs) (S "reasoning_content")) (JVal.str [])
          = JVal.str [] := by
        simp [jsOr, h3]
      have ha : jsOr (jGetProp (JVal.obj mfs) (S "content")) (JVal.str [])
          = JVal.str (c0 :: s2) := by
        rw [h2]; simp [jsOr, jTruthy]
      have hinc : jsIncludes (JVal.str (c0 :: s2)) thinkOpenTag = some true := by
        simp [jsIncludes, containsSub_of_prefix _ _ h4]
      have hmatch : jsMatchThink (JVal.str (c0 :: s2)) =
          some (some ((List.drop 7 (c0 :: s2)).take i,
            ((List.drop 7 (c0 :: s2)).drop (i + 8)).dropWhile jsRegexWs)) := by
        simp only [jsMatchThink, if_pos h4, h5]
      simp only [mapChoice, isNullish, h1, Bool.false_eq_true, if_false]
      rw [hb, ha]
      simp [hinc, hmatch, jTruthy]
  · rfl

/-- Closed instance of the quantified half of C4, with display on: the
bracketed text is kept, wrapped between the markers. -/
theorem inlineThinkExtractionWitness :
    mapChoice true false inlineThinkChoice =
      buildOutChoice inlineThinkChoice
        (JVal.obj [(S "role", JVal.str (S "assistant")),
                   (S "content", JVal.str (S "<think>\nX\n</think>\n\nY"))])
        (JVal.str (wrapThink (S "X") (S "Y"))) := by
  have h := inlineThinkExtraction.1 true
    [(S "index", JVal.num (S "0")),
     (S "message", JVal.obj [(S "role", JVal.str (S "assistant")),
                             (S "content", JVal.str (S "<think>\nX\n</think>\n\nY"))]),
     (S "finish_reason", JVal.str (S "stop"))]
    [(S "role", JVal.str (S "assistant")),
     (S "content", JVal.str (S "<think>\nX\n</think>\n\nY"))]
    (S "<think>\nX\n</think>\n\nY") 3 rfl rfl rfl (by decide) (by decide)
  simpa [inlineThinkChoice] using h

/-! ## C5 -/

/-- The big-tier trigger of the fallback heuristic. -/
def bigTierHit (model : JStr) : Bool :=
  containsSub (toLowerStr model) (S "gpt-4") || containsSub (toLowerStr model) (S "claude-opus")
    || containsSub (toLowerStr model) (S "405b")

/-- The mid-tier trigger of the fallback heuristic. -/
def midTierHit (model : JStr) : Bool :=
  containsSub (toLowerStr model) (S "claude") || containsSub (toLowerStr model) (S "gemini")
    || containsSub (toLowerStr model) (S "70b")

/-- C5: for an unmapped name whose probe result is `None` (cached, or
freshly failed), resolution returns the fallback heuristic's choice; the
heuristic tests the lowercased name in fixed priority order with the
first rule winning — a big-tier hit gives the 405b model even when the
name also contains `70b`, otherwise a mid-tier hit gives the 70b model,
otherwise the 8b model. -/
theorem fallbackPriority :
    (∀ (model : JStr) (cache : Cache) (probeOk : Bool),
      lookupStr MODEL_MAPPING model = none →
      cacheLookup cache model = some none →
      (resolveModel probeOk cache model).1 = fallbackModel model) ∧
    (∀ (model : JStr) (cache : Cache),
      lookupStr MODEL_MAPPING model = none →
      cacheLookup cache model = none →
      (resolveModel false cache model).1 = fallbackModel model) ∧
    (∀ model : JStr,
      (bigTierHit model = true → fallbackModel model = S "meta/llama-3.1-405b-instruct") ∧
      (bigTierHit model = false → midTierHit model = true →
        fallbackModel model = S "meta/llama-3.1-70b-instruct") ∧
      (bigTierHit model = false → midTierHit model = false →
        fallbackModel model = S "meta/llama-3.1-8b-instruct")) := by
  refine ⟨?_, ?_, ?_⟩
  · intro model cache probeOk h1 h2
    simp [resolveModel, h1, h2, strOptTruthy]
  · intro model cache h1 h2
    simp [resolveModel, h1, h2, strOptTruthy]
  · intro model
    refine ⟨?_, ?_, ?_⟩
    · intro hb
      simp only [bigTierHit, Bool.or_eq_true] at hb
      simp [fallbackModel]
      rcases hb with (h | h) | h <;> simp [h]
    · intro hb hm
      simp only [bigTierHit, Bool.or_eq_false_iff] at hb
      simp only [midTierHit, Bool.or_eq_true] at hm
      obtain ⟨⟨hb1, hb2⟩, hb3⟩ := hb
      simp only [fallbackModel, hb1, hb2, hb3]
      rcases hm with (h | h) | h <;> simp [h]
    · intro hb hm
      simp only [bigTierHit, Bool.or_eq_false_iff] at hb
      simp only [midTierHit, Bool.or_eq_false_iff] at hm
      obtain ⟨⟨hb1, hb2⟩, hb3⟩ := hb
      obtain ⟨⟨hm1, hm2⟩, hm3⟩ := hm
      simp [fallbackModel, hb1, hb2, hb3, hm1, hm2, hm3]

/-- Closed instance of C5: the name `my-gpt-4-70b` with a cached failed
probe resolves to the 405b fallback (the higher-priority rule wins over
the `70b` rule), and a cache-missing failed probe on `some-70b` gives
the mid tier. -/
theorem fallbackPriorityWitness :
    (resolveModel false [(S "my-gpt-4-70b", none)] (S "my-gpt-4-70b")).1 =
      S "meta/llama-3.1-405b-instruct" ∧
    (resolveModel false [] (S "some-70b")).1 = S "meta/llama-3.1-70b-instruct" := by
  constructor
  · rw [fallbackPriority.1 (S "my-gpt-4-70b") [(S "my-gpt-4-70b", none)] false rfl
      (by decide)]
    exact (fallbackPriority.2.2 (S "my-gpt-4-70b")).1 (by decide)
  · rw [fallbackPriority.2.1 (S "some-70b") [] rfl rfl]
    exact ((fallbackPriority.2.2 (S "some-70b")).2.1 (by decide) (by decide))

/-! ## C6 -/

theorem cacheLookup_set_self (c : Cache) (k : JStr) (v : Option JStr) :
    cacheLookup (cacheSet c k v) k = some v := by
  induction c with
  | nil => simp [cacheSet, cacheLookup]
  | cons p rest ih =>
    obtain ⟨k2, v2⟩ := p
    by_cases hk : k2 = k
    · subst hk; simp [cacheSet, cacheLookup]
    · simp [cacheSet, cacheLookup, hk, ih]

/-- C6: resolution is idempotent and probe-free once cached — a second
resolution of the same public name, run against the cache state the
first one left behind and under any probe outcome, issues zero probe
calls and returns the same backend name as the first. -/
theorem resolveIdempotent (probe1 probe2 : Bool) (cache : Cache) (model : JStr) :
    (resolveModel probe2 (resolveModel probe1 cache model).2.1 model).2.2 = 0 ∧
    (resolveModel probe2 (resolveModel probe1 cache model).2.1 model).1 =
      (resolveModel probe1 cache model).1 := by
  unfold resolveModel
  by_cases hm : strOptTruthy (lookupStr MODEL_MAPPING model)
  · simp [hm]
  · cases hc : cacheLookup cache model with
    | some v =>
      by_cases hv : strOptTruthy v
      · simp [hm, hc, hv]
      · simp [hm, hc, hv]
    | none =>
      by_cases hp : probe1
      · by_cases hsm : strOptTruthy (some model)
        · simp [hm, hc, hp, hsm, cacheLookup_set_self]
        · simp [hm, hc, hp, hsm, cacheLookup_set_self]
      · have hnone : strOptTruthy (none : Option JStr) = false := rfl
        simp [hm, hc, hp, cacheLookup_set_self, hnone]

/-! ## C7 -/

/-- C7 counterexample: a request whose `temperature` field is present
and zero.  Zero is falsy, so `temperature || 0.85` replaces it: the
upstream request carries the default constant, not the inbound value
(their serializations differ), refuting "when temperature is present
the upstream request's temperature equals the inbound value". -/
theorem temperatureZeroCounterexample :
    (buildNimRequest false (S "m") (JVal.arr [JVal.obj [(S "role", JVal.str (S "user"))]])
        (JVal.num (S "0")) JVal.undefined JVal.undefined).temperature = JVal.num (S "0.85") ∧
    stringifyVal (JVal.num (S "0.85")) ≠ stringifyVal (JVal.num (S "0")) := by
  exact ⟨rfl, by decide⟩

/-- C7, amended: the translator copies `messages` verbatim and applies
`||`-defaults: a truthy inbound value is kept, while an absent *or
falsy* (zero) value is replaced by the constant (`0.85` for
temperature, `16384` for the token limit); the stream flag is kept when
truthy and `false` otherwise. -/
theorem translatorDefaultsAmended (useThinking : Bool) (nimModel : JStr)
    (messages temperature max_tokens stream : JVal) :
    (buildNimRequest useThinking nimModel messages temperature max_tokens stream).messages
        = messages ∧
    (jTruthy temperature = true →
      (buildNimRequest useThinking nimModel messages temperature max_tokens stream).temperature
        = temperature) ∧
    (jTruthy temperature = false →
      (buildNimRequest useThinking nimModel messages temperature max_tokens stream).temperature
        = JVal.num (S "0.85")) ∧
    (jTruthy max_tokens = true →
      (buildNimRequest useThinking nimModel messages temperature max_tokens stream).max_tokens
        = max_tokens) ∧
    (jTruthy max_tokens = false →
      (buildNimRequest useThinking nimModel messages temperature max_tokens stream).max_tokens
        = JVal.num (S "16384")) ∧
    (jTruthy stream = true →
      (buildNimRequest useThinking nimModel messages temperature max_tokens stream).stream
        = stream) ∧
    (jTruthy stream = false →
      (buildNimRequest useThinking nimModel messages temperature max_tokens stream).stream
        = JVal.bool false) := by
  refine ⟨rfl, ?_, ?_, ?_, ?_, ?_, ?_⟩ <;>
    intro h <;> simp [buildNimRequest, jsOr, h]

/-- Closed instance of the amended C7 at truthy inbound values. -/
theorem translatorDefaultsAmendedWitness :
    (buildNimRequest false (S "m") (JVal.arr []) (JVal.num (S "1")) (JVal.num (S "64"))
        (JVal.bool true)).temperature = JVal.num (S "1") ∧
    (buildNimRequest false (S "m") (JVal.arr []) JVal.undefined JVal.undefined JVal.undefined).temperature
        = JVal.num (S "0.85") := by
  constructor
  · exact (translatorDefaultsAmended false (S "m") (JVal.arr []) (JVal.num (S "1"))
      (JVal.num (S "64")) (JVal.bool true)).2.1 (by decide)
  · exact (translatorDefaultsAmended false (S "m") (JVal.arr []) JVal.undefined JVal.undefined
      JVal.undefined).2.2.1 (by decide)

/-! ## C8 -/

/-- Outcome discriminator: did the handler answer with the 400
client-input rejection? -/
def isClientError : HandlerOutcome → Bool
  | .clientError _ _ _ _ => true
  | .upstream _ => false

/-- C8: a missing, falsy, non-array or empty-array `messages` field
makes the handler return the 400 envelope (message, type
`invalid_request_error`, code 400) with the cache untouched and zero
probes — before any resolution or upstream call; a non-empty array
never produces the 400 client-input rejection. -/
theorem messagesValidation :
    (∀ (probeOk : Bool) (cache : Cache) (model : JStr)
        (messages temperature max_tokens stream : JVal),
      messagesInvalid messages = true →
      handleChat probeOk cache model messages temperature max_tokens stream =
        (.clientError 400 messagesErrMsg (S "invalid_request_error") 400, cache, 0)) ∧
    (∀ (probeOk : Bool) (cache : Cache) (model : JStr) (x : JVal) (xs : List JVal)
        (temperature max_tokens stream : JVal),
      isClientError
        (handleChat probeOk cache model (JVal.arr (x :: xs))
          temperature max_tokens stream).1 = false) := by
  constructor
  · intro probeOk cache model messages temperature max_tokens stream h
    simp [handleChat, h]
  · intro probeOk cache model x xs temperature max_tokens stream
    simp [handleChat, messagesInvalid, jTruthy, isClientError]

/-- Closed instances of C8: an absent field, an empty array and a
non-array are rejected with zero probes; a one-element array is not. -/
theorem messagesValidationWitness :
    handleChat true [] (S "gpt-4") JVal.undefined JVal.undefined JVal.undefined JVal.undefined =
      (.clientError 400 messagesErrMsg (S "invalid_request_error") 400, [], 0) ∧
    handleChat true [] (S "gpt-4") (JVal.arr []) JVal.undefined JVal.undefined JVal.undefined =
      (.clientError 400 messagesErrMsg (S "invalid_request_error") 400, [], 0) ∧
    handleChat true [] (S "gpt-4") (JVal.str (S "hi")) JVal.undefined JVal.undefined JVal.undefined =
      (.clientError 400 messagesErrMsg (S "invalid_request_error") 400, [], 0) ∧
    isClientError
      (handleChat true [] (S "gpt-4") (JVal.arr [JVal.obj []])
        JVal.undefined JVal.undefined JVal.undefined).1 = false := by
  refine ⟨?_, ?_, ?_, ?_⟩
  · exact messagesValidation.1 true [] (S "gpt-4") JVal.undefined JVal.undefined JVal.undefined
      JVal.undefined rfl
  · exact messagesValidation.1 true [] (S "gpt-4") (JVal.arr []) JVal.undefined JVal.undefined
      JVal.undefined rfl
  · exact messagesValidation.1 true [] (S "gpt-4") (JVal.str (S "hi")) JVal.undefined
      JVal.undefined JVal.undefined rfl
  · exact messagesValidation.2 true [] (S "gpt-4") (JVal.obj []) [] JVal.undefined JVal.undefined
      JVal.undefined

end NimProxy
